import Mathlib

/-!
Verification of the explore-openapi snapshot action.

Shallow embedding of the request/response orchestration pipeline:
the context resolver, the authenticator and submitter (src/index.ts,
src/oidc.ts, src/api.ts), and the result reporter (src/comment.ts).

JavaScript string primitives (startsWith, replace-first-occurrence,
includes, toLowerCase, Array.join) are embedded as executable functions
over the character lists of Lean strings.  JavaScript truthiness of
optional strings and numbers is made explicit (a string is truthy when
present and non-empty, a number when present and non-zero).
-/

/-- Embedding of the JavaScript test `pat.isPrefixOf l` used below:
`List.isPrefixOf` from the core library, specialised to characters. -/
def listIsPrefixOf (pat l : List Char) : Bool := pat.isPrefixOf l

/-- Embedding of JavaScript `String.prototype.includes` at the level of
character lists: scan every suffix for the pattern as a prefix. -/
def listContains (pat : List Char) : List Char → Bool
  | [] => listIsPrefixOf pat []
  | c :: cs => listIsPrefixOf pat (c :: cs) || listContains pat cs

/-- Embedding of JavaScript `s.includes(pat)`. -/
def strContains (s pat : String) : Bool := listContains pat.data s.data

/-- Embedding of JavaScript `s.startsWith(pat)`. -/
def jsStartsWith (s pat : String) : Bool := listIsPrefixOf pat.data s.data

/-- Embedding of JavaScript `l.replace(pat, repl)` with a string pattern:
only the first occurrence of the pattern is replaced. -/
def replaceFirstAux (pat repl : List Char) : List Char → List Char
  | [] => if listIsPrefixOf pat [] then repl else []
  | c :: cs =>
    if listIsPrefixOf pat (c :: cs) then repl ++ (c :: cs).drop pat.length
    else c :: replaceFirstAux pat repl cs

/-- Embedding of JavaScript `s.replace(pat, repl)` (first occurrence only). -/
def jsReplaceFirst (s pat repl : String) : String :=
  ⟨replaceFirstAux pat.data repl.data s.data⟩

/-- Embedding of JavaScript `s.toLowerCase()` on the code points that occur
in the configuration strings of this action (ASCII). -/
def jsToLower (s : String) : String := ⟨s.data.map Char.toLower⟩

/-- Embedding of JavaScript `Array.prototype.join` with separator `"\n"`,
used by `formatComment` via `lines.join("\n")`. -/
def joinLines : List String → String
  | [] => ""
  | [l] => l
  | l :: ls => l ++ "\n" ++ joinLines ls

/-- JavaScript truthiness of an optional string: present and non-empty. -/
def optStrTruthy : Option String → Bool
  | some s => s ≠ ""
  | none => false

/-- JavaScript truthiness of an optional number: present and non-zero. -/
def optNatTruthy : Option Nat → Bool
  | some n => n ≠ 0
  | none => false

/-- The part of `github.context.payload.pull_request` read by the action:
the pull-request number and the base ref (`pull_request.base?.ref`). -/
structure PullRequestInfo where
  number : Nat
  baseRef : Option String
deriving DecidableEq, Repr

/-- The part of `github.context` read by the action: the optional
pull-request payload and the git ref string. -/
structure GithubContext where
  pull_request : Option PullRequestInfo
  ref : String
deriving DecidableEq, Repr

/-- Snapshot-name derivation from src/index.ts lines 104 to 120: the
explicit input wins when non-empty, then the pull-request number, then
the ref with a `refs/heads/` or `refs/tags/` prefix stripped via a
first-occurrence replace guarded by `startsWith`, then the raw ref. -/
def deriveSnapshotName (snapshotNameInput : String) (ctx : GithubContext) : String :=
  if snapshotNameInput = "" then
    match ctx.pull_request with
    | some pr => toString pr.number
    | none =>
      if jsStartsWith ctx.ref "refs/heads/" then jsReplaceFirst ctx.ref "refs/heads/" ""
      else if jsStartsWith ctx.ref "refs/tags/" then jsReplaceFirst ctx.ref "refs/tags/" ""
      else ctx.ref
  else snapshotNameInput

/-- Permanence derivation from src/index.ts lines 122 to 130: a non-empty
input is lowercased and compared to `"true"`; otherwise the flag is the
negation of being in a pull-request context. -/
def derivePermanent (permanentInput : String) (ctx : GithubContext) : Bool :=
  if permanentInput ≠ "" then jsToLower permanentInput == "true"
  else ctx.pull_request.isNone

/-- Fork context from src/types.ts: all three fields are optional at the
type level. -/
structure ForkContext where
  targetRepository : Option String
  targetPullRequest : Option Nat
  commitSha : Option String
deriving DecidableEq, Repr

/-- The truthiness test from src/api.ts lines 35 to 39:
`forkContext?.targetRepository && forkContext?.targetPullRequest &&
forkContext?.commitSha`. -/
def forkComplete : Option ForkContext → Bool
  | some f =>
    optStrTruthy f.targetRepository && optNatTruthy f.targetPullRequest
      && optStrTruthy f.commitSha
  | none => false

/-- The JSON body built by `sendSchemaToApi` (src/api.ts lines 26 to 44).
The schema document is opaque to the pipeline and is carried verbatim. -/
structure RequestBody where
  schema : String
  project : String
  snapshotName : Option String
  forkContext : Option ForkContext
deriving DecidableEq, Repr

/-- The single outbound POST request built by `sendSchemaToApi`. -/
structure HttpRequest where
  url : String
  headers : List (String × String)
  body : RequestBody
deriving DecidableEq, Repr

/-- The fields of the API success payload consumed by the reporter
(src/comment.ts): the nested `snapshot` object with its `id` and `name`. -/
structure SnapshotInfo where
  id : Option String
  name : String
deriving DecidableEq, Repr

/-- The API response shape consumed by src/comment.ts `formatComment`:
an optional `snapshot` object, the `sameAsBase` flag, and optional
`message` and `error` strings. -/
structure SnapshotReturn where
  snapshot : Option SnapshotInfo
  sameAsBase : Bool
  message : Option String
  error : Option String
deriving DecidableEq, Repr

/-- The HTTP response to the single POST: numeric status, the body as
text (read on failure), and the body as parsed JSON (read on success). -/
structure HttpResponse where
  status : Nat
  text : String
  json : SnapshotReturn
deriving DecidableEq, Repr

/-- `fetch` marks a response ok exactly when the status is in 200..299. -/
def responseOk (status : Nat) : Bool := 200 ≤ status && status ≤ 299

/-- Request construction from src/api.ts lines 19 to 50: start from the
plain JSON request; a truthy OIDC token adds a Bearer header; otherwise a
complete fork context redirects to the `-fork` endpoint, adds a
`Fork <repository>` header, and puts the fork context into the body. -/
def buildRequest (apiUrl schema : String) (oidcToken : Option String) (project : String)
    (snapshotName : Option String) (forkContext : Option ForkContext) : HttpRequest :=
  let headers := [("Content-Type", "application/json")]
  let body : RequestBody :=
    { schema := schema, project := project, snapshotName := snapshotName, forkContext := none }
  if optStrTruthy oidcToken then
    { url := apiUrl,
      headers := headers ++ [("Authorization", "Bearer " ++ oidcToken.getD "")],
      body := body }
  else if forkComplete forkContext then
    { url := apiUrl ++ "-fork",
      headers := headers ++
        [("Authorization", "Fork " ++ (forkContext.bind ForkContext.targetRepository).getD "")],
      body := { body with forkContext := forkContext } }
  else
    { url := apiUrl, headers := headers, body := body }

/-- Response interpretation from src/api.ts lines 52 to 60: non-ok
statuses raise an error folding the numeric status and the verbatim
response text into the message; ok statuses return the parsed JSON. -/
def interpretResponse (resp : HttpResponse) : Except String SnapshotReturn :=
  if responseOk resp.status then Except.ok resp.json
  else Except.error
    ("API request failed with status " ++ toString resp.status ++ ": " ++ resp.text)

/-- `sendSchemaToApi` (src/api.ts lines 13 to 67): builds exactly one
request and maps the single HTTP response to the outcome.  The issued
request is returned alongside the outcome. -/
def sendSchemaToApi (apiUrl schema : String) (oidcToken : Option String) (project : String)
    (snapshotName : Option String) (forkContext : Option ForkContext) (resp : HttpResponse) :
    HttpRequest × Except String SnapshotReturn :=
  (buildRequest apiUrl schema oidcToken project snapshotName forkContext,
   interpretResponse resp)

/-- `getOidcToken` (src/oidc.ts lines 8 to 20): the platform call
`core.getIDToken` either throws (modelled as `Except.error` holding the
thrown message) or yields an optional token string; a falsy token raises
`Failed to get OIDC token from GitHub Actions`, and every raised message
is rewrapped as `Failed to retrieve OIDC token: <message>`. -/
def getOidcToken (idTokenResult : Except String (Option String)) : Except String String :=
  match idTokenResult with
  | Except.error e => Except.error ("Failed to retrieve OIDC token: " ++ e)
  | Except.ok tok =>
    if optStrTruthy tok then Except.ok (tok.getD "")
    else Except.error
      ("Failed to retrieve OIDC token: Failed to get OIDC token from GitHub Actions")

/-- The hard-coded API endpoint from src/index.ts line 69. -/
def snapshotApiUrl : String := "https://editor-api.explore-openapi.dev/public/v1/snapshot"

/-- The no-credential failure message from src/index.ts lines 96 to 98. -/
def noAuthTokenMessage : String :=
  "No authentication token provided. This is expected for external contributor PRs as secrets are not available. A maintainer can manually approve and re-run this workflow, or use OIDC authentication by setting \x27use-oidc: true\x27."

/-- Outcome of the front part of `run`: either the run is marked failed
before any request is sent, or exactly one request is submitted. -/
inductive RunStep where
  | failed (message : String)
  | submitted (request : HttpRequest)
deriving DecidableEq, Repr

/-- The authentication and submission phase of `run` (src/index.ts lines
58 to 157).  OIDC mode is entered when the lowercased `use-oidc` input is
`"true"`; a failed token acquisition marks the run failed with the
permission hint and returns before any request; legacy mode without a
token marks the run failed with the no-credential message.  Otherwise the
derived snapshot name is submitted through `buildRequest` (the action
itself never passes a fork context, and `sendSchemaToApi` ignores the
extra legacy fields that `run` passes along). -/
def run (snapshotNameInput authToken permanentInput useOidc : String)
    (ctx : GithubContext) (schema project : String)
    (idTokenResult : Except String (Option String)) : RunStep :=
  if jsToLower useOidc == "true" then
    match getOidcToken idTokenResult with
    | Except.error errorMessage =>
      RunStep.failed
        ("Failed to obtain OIDC token: " ++ errorMessage ++
          ". Make sure the workflow has \x27id-token: write\x27 permission.")
    | Except.ok oidcToken =>
      RunStep.submitted
        (buildRequest snapshotApiUrl schema (some oidcToken) project
          (some (deriveSnapshotName snapshotNameInput ctx)) none)
  else if authToken = "" then RunStep.failed noAuthTokenMessage
  else
    RunStep.submitted
      (buildRequest snapshotApiUrl schema none project
        (some (deriveSnapshotName snapshotNameInput ctx)) none)

/-- The fixed marker from src/comment.ts line 6. -/
def COMMENT_IDENTIFIER : String := "<!\x2d\x2d openapi-snapshot-comment \x2d\x2d>"

/-- `context.payload.pull_request?.number` as an optional number. -/
def prNumberOpt (ctx : GithubContext) : Option Nat :=
  ctx.pull_request.map (fun pr => pr.number)

/-- `context.payload.pull_request?.base?.ref` as an optional string. -/
def prBaseRefOpt (ctx : GithubContext) : Option String :=
  ctx.pull_request.bind (fun pr => pr.baseRef)

/-- `context.payload.pull_request?.base?.ref || "base branch"` from
src/comment.ts line 73. -/
def baseRefOrFallback (ctx : GithubContext) : String :=
  if optStrTruthy (prBaseRefOpt ctx) then (prBaseRefOpt ctx).getD "" else "base branch"

/-- The lines pushed by `formatComment` (src/comment.ts lines 54 to 110),
before they are joined with newlines: marker and heading, then either the
failure branch, the same-as-base branch, or the success branch, then the
optional trailing message line. -/
def formatCommentLines (response : SnapshotReturn) (project : String)
    (ctx : GithubContext) : List String :=
  COMMENT_IDENTIFIER :: "## 📸 OpenAPI Snapshot" :: "" ::
  (match response.snapshot with
   | none =>
     ["❌ Failed to create snapshot"] ++
     (if optStrTruthy response.error then ["", "**Error:** " ++ response.error.getD ""]
      else [])
   | some snap =>
     (if response.sameAsBase then
       ["ℹ️ No changes detected compared to " ++ baseRefOrFallback ctx, "",
        "🔗 **Base Branch Snapshot:** https://explore-openapi.dev/view?project=" ++
          project ++ "&snapshot=" ++ baseRefOrFallback ctx]
     else
       ["✅ Successfully created snapshot!"] ++
       (if (project != "") && optNatTruthy (prNumberOpt ctx)
           && optStrTruthy (prBaseRefOpt ctx) then
         ["", "🔄 **Compare URL:** https://explore-openapi.dev/compare?project=" ++
           project ++ "&baseSnapshot=" ++ (prBaseRefOpt ctx).getD "" ++
           "&featureSnapshot=" ++ toString ((prNumberOpt ctx).getD 0)]
       else []) ++
       (if optStrTruthy snap.id && (project != "") then
         ["", "🔗 **Snapshot URL:** https://explore-openapi.dev/view?project=" ++
           project ++ "&snapshot=" ++ snap.name]
       else [])) ++
     (if optStrTruthy response.message then ["", "📝 " ++ response.message.getD ""]
      else []))

/-- `formatComment` joins the rendered lines with newlines. -/
def formatComment (response : SnapshotReturn) (project : String)
    (ctx : GithubContext) : String :=
  joinLines (formatCommentLines response project ctx)

/-- A conversation-thread comment: platform identity plus body text. -/
structure Comment where
  id : Nat
  body : String
deriving DecidableEq, Repr

/-- A comment is marker-tagged when its body contains the fixed marker
(src/comment.ts lines 31 to 33). -/
def isMarked (c : Comment) : Bool := strContains c.body COMMENT_IDENTIFIER

/-- The upsert performed by `createOrUpdateComment` on the listed
comments: the first marker-tagged comment is updated in place through its
identity, otherwise a new comment is appended with a fresh identity. -/
def upsertComment (comments : List Comment) (newId : Nat) (newBody : String) :
    List Comment :=
  match comments.find? isMarked with
  | some existingComment =>
    comments.map (fun c =>
      if c.id = existingComment.id then { c with body := newBody } else c)
  | none => comments ++ [{ id := newId, body := newBody }]

/-- `createOrUpdateComment` (src/comment.ts lines 8 to 52): a missing or
non-positive pull-request number is fatal; otherwise the rendered body is
upserted into the listed comments. -/
def createOrUpdateComment (ctx : GithubContext) (comments : List Comment) (newId : Nat)
    (response : SnapshotReturn) (project : String) : Except String (List Comment) :=
  match ctx.pull_request with
  | none => Except.error "No pull request number found"
  | some pr =>
    if pr.number = 0 then Except.error "No pull request number found"
    else Except.ok (upsertComment comments newId (formatComment response project ctx))

/-- Number of marker-tagged comments in a thread. -/
def countMarked (comments : List Comment) : Nat := comments.countP isMarked

/-- A sequence of reruns against the same thread: each invocation carries
a fresh comment identity, a response and a project, and performs the
upsert with the rendered body. -/
def runThread (ctx : GithubContext) (comments : List Comment) :
    List (Nat × SnapshotReturn × String) → List Comment
  | [] => comments
  | (newId, response, project) :: rest =>
    runThread ctx (upsertComment comments newId (formatComment response project ctx)) rest

/-! ### Shared lemmas about the embedded string primitives -/

theorem listIsPrefixOf_append (p t : List Char) : listIsPrefixOf p (p ++ t) = true := by
  induction p with
  | nil => cases t <;> rfl
  | cons a as ih =>
    simp only [listIsPrefixOf, List.isPrefixOf, List.cons_append, beq_self_eq_true,
      Bool.true_and]
    simpa [listIsPrefixOf, List.isPrefixOf] using ih

theorem listContains_self_append (p t : List Char) : listContains p (p ++ t) = true := by
  cases h : p ++ t with
  | nil =>
    have hp : p = [] := (List.append_eq_nil.mp h).1
    have ht : t = [] := (List.append_eq_nil.mp h).2
    subst hp; subst ht; rfl
  | cons c cs =>
    have hpre := listIsPrefixOf_append p t
    rw [h] at hpre
    simp [listContains, hpre]

theorem listContains_of_infix {p l : List Char} (h : p <:+: l) : listContains p l = true := by
  obtain ⟨s, t, rfl⟩ := h
  induction s with
  | nil => simpa using listContains_self_append p t
  | cons c cs ih =>
    simp only [List.cons_append, listContains, Bool.or_eq_true]
    right
    simpa [List.append_assoc] using ih

theorem listContains_append_left (s : List Char) {t p : List Char}
    (h : listContains p t = true) : listContains p (s ++ t) = true := by
  induction s with
  | nil => simpa using h
  | cons c cs ih =>
    simp only [List.cons_append, listContains, Bool.or_eq_true]
    exact Or.inr ih

theorem strContains_middle (a b c : String) : strContains (a ++ b ++ c) b = true := by
  unfold strContains
  rw [String.data_append, String.data_append]
  exact listContains_of_infix ⟨a.data, c.data, by simp⟩

theorem strContains_right (s t : String) : strContains (s ++ t) t = true := by
  unfold strContains
  rw [String.data_append]
  exact listContains_of_infix ⟨s.data, [], by simp⟩

theorem strContains_left (s t p : String) (h : strContains t p = true) :
    strContains (s ++ t) p = true := by
  unfold strContains at h ⊢
  rw [String.data_append]
  exact listContains_append_left s.data h

/-- Head character of a string, used to separate rendered report lines. -/
def strHead (s : String) : Option Char := s.data.head?

theorem strHead_ne {s t : String} {a b : Char} (hs : strHead s = some a)
    (ht : strHead t = some b) (hab : a ≠ b) : s ≠ t := by
  intro he
  rw [he, ht] at hs
  exact hab (Option.some.inj hs).symm

theorem strHead_ne_none {s t : String} {a : Char} (hs : strHead s = some a)
    (ht : strHead t = none) : s ≠ t := by
  intro he
  rw [he, ht] at hs
  cases hs

theorem replaceFirstAux_strip (p t : List Char) : replaceFirstAux p [] (p ++ t) = t := by
  cases p with
  | nil =>
    cases t with
    | nil => rfl
    | cons c cs => simp [replaceFirstAux, listIsPrefixOf, List.isPrefixOf]
  | cons a as =>
    have h1 : listIsPrefixOf (a :: as) (a :: (as ++ t)) = true := by
      simpa using listIsPrefixOf_append (a :: as) t
    show replaceFirstAux (a :: as) [] (a :: (as ++ t)) = t
    simp only [replaceFirstAux, h1, if_true]
    show [] ++ List.drop (a :: as).length ((a :: as) ++ t) = t
    simp [List.drop_left]

theorem jsStartsWith_append (p rest : String) : jsStartsWith (p ++ rest) p = true := by
  unfold jsStartsWith
  rw [String.data_append]
  exact listIsPrefixOf_append _ _

theorem jsReplaceFirst_strip (p rest : String) :
    jsReplaceFirst (p ++ rest) p "" = rest := by
  unfold jsReplaceFirst
  apply String.ext
  show replaceFirstAux p.data [] (p ++ rest).data = rest.data
  rw [String.data_append]
  exact replaceFirstAux_strip _ _

/-! ### Concrete invocation contexts used by the witnesses -/

/-- A branch-push invocation context. -/
def ctxPush : GithubContext := { pull_request := none, ref := "refs/heads/main" }

/-- A pull-request invocation context. -/
def ctxPR : GithubContext :=
  { pull_request := some { number := 123, baseRef := some "main" },
    ref := "refs/pull/123/merge" }

/-! ### Claim theorems -/

/-- C1: without a non-empty override the derived snapshot name is the
decimal pull-request number in a pull-request context, otherwise the ref
with a `refs/heads/` or `refs/tags/` prefix stripped, otherwise the raw
ref; a non-empty override is returned unchanged in every context. -/
theorem snapshotName_derivation (input : String) (ctx : GithubContext) :
    (input ≠ "" → deriveSnapshotName input ctx = input) ∧
    (input = "" →
      (∀ pr, ctx.pull_request = some pr →
        deriveSnapshotName input ctx = toString pr.number) ∧
      (ctx.pull_request = none →
        (∀ rest, ctx.ref = "refs/heads/" ++ rest → deriveSnapshotName input ctx = rest) ∧
        (∀ rest, ctx.ref = "refs/tags/" ++ rest → deriveSnapshotName input ctx = rest) ∧
        (jsStartsWith ctx.ref "refs/heads/" = false →
          jsStartsWith ctx.ref "refs/tags/" = false →
          deriveSnapshotName input ctx = ctx.ref))) := by
  refine ⟨fun h => by simp [deriveSnapshotName, h], fun h => ?_⟩
  subst h
  refine ⟨fun pr hpr => by simp [deriveSnapshotName, hpr], fun hnone => ⟨?_, ?_, ?_⟩⟩
  · intro rest hrest
    obtain ⟨pro, ref⟩ := ctx
    simp only at hnone hrest
    subst hnone hrest
    simp [deriveSnapshotName, jsStartsWith_append, jsReplaceFirst_strip]
  · intro rest hrest
    obtain ⟨pro, ref⟩ := ctx
    simp only at hnone hrest
    subst hnone hrest
    have hf : jsStartsWith ("refs/tags/" ++ rest) "refs/heads/" = false := rfl
    simp [deriveSnapshotName, hf, jsStartsWith_append, jsReplaceFirst_strip]
  · intro h1 h2
    simp [deriveSnapshotName, hnone, h1, h2]

theorem snapshotName_derivation_witness :
    ("" : String) = "" ∧ ctxPush.pull_request = none ∧
    deriveSnapshotName "" ctxPush = "main" :=
  ⟨rfl, rfl, (((snapshotName_derivation "" ctxPush).2 rfl).2 rfl).1 "main" (by decide)⟩

/-- C2: without an explicit override the permanent flag is false exactly
in pull-request contexts and true otherwise; with a non-empty override
the flag is computed from the override alone, independent of context. -/
theorem permanent_derivation (input : String) (ctx : GithubContext) :
    (input = "" →
      (∀ pr, ctx.pull_request = some pr → derivePermanent input ctx = false) ∧
      (ctx.pull_request = none → derivePermanent input ctx = true)) ∧
    (input ≠ "" → derivePermanent input ctx = (jsToLower input == "true")) := by
  refine ⟨fun h => ?_, fun h => by simp [derivePermanent, h]⟩
  subst h
  exact ⟨fun pr hpr => by simp [derivePermanent, hpr],
    fun hnone => by simp [derivePermanent, hnone]⟩

theorem permanent_derivation_witness :
    ("" : String) = "" ∧
    ctxPR.pull_request = some { number := 123, baseRef := some "main" } ∧
    derivePermanent "" ctxPR = false :=
  ⟨rfl, rfl, ((permanent_derivation "" ctxPR).1 rfl).1 _ rfl⟩

/-- C9: a non-empty permanent input yields a true flag exactly when its
lowercasing is the string `true`; any other non-empty value yields false
even where the context default would have been true. -/
theorem permanent_override_parsing (input : String) (ctx : GithubContext)
    (h : input ≠ "") :
    derivePermanent input ctx = true ↔ jsToLower input = "true" := by
  simp [derivePermanent, h]

theorem permanent_override_parsing_witness :
    ("yes" : String) ≠ "" ∧
    (derivePermanent "yes" ctxPush = true ↔ jsToLower "yes" = "true") :=
  ⟨by decide, permanent_override_parsing "yes" ctxPush (by decide)⟩

/-- C3: with no identity token, a complete fork context redirects the
request to the `-fork` endpoint with the `Fork <repository>` header and
the fork context in the body, while an incomplete fork context makes the
submission identical to one with no fork context at all. -/
theorem fork_context_all_or_nothing (apiUrl schema : String) (oidcToken : Option String)
    (project : String) (snapshotName : Option String) (fc : Option ForkContext)
    (hno : optStrTruthy oidcToken = false) :
    (forkComplete fc = true →
      (buildRequest apiUrl schema oidcToken project snapshotName fc).url =
        apiUrl ++ "-fork" ∧
      (∀ f r, fc = some f → f.targetRepository = some r →
        ("Authorization", "Fork " ++ r) ∈
          (buildRequest apiUrl schema oidcToken project snapshotName fc).headers) ∧
      (buildRequest apiUrl schema oidcToken project snapshotName fc).body.forkContext = fc) ∧
    (forkComplete fc = false →
      ∀ resp, sendSchemaToApi apiUrl schema oidcToken project snapshotName fc resp =
        sendSchemaToApi apiUrl schema oidcToken project snapshotName none resp) := by
  constructor
  · intro hfc
    refine ⟨by simp [buildRequest, hno, hfc], ?_, by simp [buildRequest, hno, hfc]⟩
    intro f r hf hr
    subst hf
    simp [buildRequest, hno, hfc, hr]
  · intro hfc resp
    have hnone : forkComplete none = false := rfl
    simp [sendSchemaToApi, buildRequest, hno, hfc, hnone]

/-- A complete fork context used by the fork-handling witness. -/
def fcComplete : ForkContext :=
  { targetRepository := some "owner/repo", targetPullRequest := some 7,
    commitSha := some "abc1234" }

theorem fork_context_all_or_nothing_witness :
    optStrTruthy none = false ∧
    (forkComplete (some fcComplete) = true →
      (buildRequest snapshotApiUrl "doc" none "proj" (some "7") (some fcComplete)).url =
        snapshotApiUrl ++ "-fork" ∧
      (∀ f r, some fcComplete = some f → f.targetRepository = some r →
        ("Authorization", "Fork " ++ r) ∈
          (buildRequest snapshotApiUrl "doc" none "proj" (some "7")
            (some fcComplete)).headers) ∧
      (buildRequest snapshotApiUrl "doc" none "proj" (some "7")
        (some fcComplete)).body.forkContext = some fcComplete) :=
  ⟨rfl, (fork_context_all_or_nothing snapshotApiUrl "doc" none "proj" (some "7")
    (some fcComplete) rfl).1⟩

/-- C4: every non-success HTTP status makes the submission fail with a
message containing the decimal status and the verbatim response body. -/
theorem api_error_surfaces_status_and_body (apiUrl schema : String)
    (oidcToken : Option String) (project : String) (snapshotName : Option String)
    (fc : Option ForkContext) (resp : HttpResponse)
    (h : responseOk resp.status = false) :
    ∃ msg, (sendSchemaToApi apiUrl schema oidcToken project snapshotName fc resp).2 =
        Except.error msg ∧
      strContains msg (toString resp.status) = true ∧
      strContains msg resp.text = true := by
  refine ⟨"API request failed with status " ++ toString resp.status ++ ": " ++ resp.text,
    ?_, ?_, ?_⟩
  · simp [sendSchemaToApi, interpretResponse, h]
  · have hm := strContains_middle "API request failed with status "
      (toString resp.status) (": " ++ resp.text)
    simpa [String.append_assoc] using hm
  · exact strContains_right _ _

/-- The empty success payload used by concrete responses. -/
def emptyReturn : SnapshotReturn :=
  { snapshot := none, sameAsBase := false, message := none, error := none }

/-- A concrete 401 response with body `Unauthorized`. -/
def respUnauthorized : HttpResponse :=
  { status := 401, text := "Unauthorized", json := emptyReturn }

theorem api_error_surfaces_status_and_body_witness :
    responseOk respUnauthorized.status = false ∧
    ∃ msg, (sendSchemaToApi snapshotApiUrl "doc" none "proj" (some "123") none
        respUnauthorized).2 = Except.error msg ∧
      strContains msg (toString respUnauthorized.status) = true ∧
      strContains msg respUnauthorized.text = true :=
  ⟨by decide, api_error_surfaces_status_and_body snapshotApiUrl "doc" none "proj"
    (some "123") none respUnauthorized (by decide)⟩

/-- C10: with no truthy OIDC token and an incomplete fork context the
submitter still issues the single POST to the unmodified endpoint with
only the JSON content-type header and no fork context in the body, and
the outcome is the interpretation of the HTTP response alone. -/
theorem sendSchema_no_credential_plain (apiUrl schema : String)
    (oidcToken : Option String) (project : String) (snapshotName : Option String)
    (fc : Option ForkContext) (resp : HttpResponse)
    (hoidc : optStrTruthy oidcToken = false) (hfc : forkComplete fc = false) :
    (sendSchemaToApi apiUrl schema oidcToken project snapshotName fc resp).1.url = apiUrl ∧
    (sendSchemaToApi apiUrl schema oidcToken project snapshotName fc resp).1.headers =
      [("Content-Type", "application/json")] ∧
    (sendSchemaToApi apiUrl schema oidcToken project snapshotName fc resp).1.body =
      { schema := schema, project := project, snapshotName := snapshotName,
        forkContext := none } ∧
    (sendSchemaToApi apiUrl schema oidcToken project snapshotName fc resp).2 =
      interpretResponse resp := by
  refine ⟨?_, ?_, ?_, rfl⟩ <;> simp [sendSchemaToApi, buildRequest, hoidc, hfc]

/-- An incomplete fork context: the pull-request number is missing. -/
def fcPartial : ForkContext :=
  { targetRepository := some "owner/repo", targetPullRequest := none,
    commitSha := some "abc1234" }

/-- A concrete 200 response. -/
def respOk200 : HttpResponse :=
  { status := 200, text := "",
    json := { snapshot := some { id := some "id1", name := "123" },
              sameAsBase := false, message := none, error := none } }

theorem sendSchema_no_credential_plain_witness :
    optStrTruthy none = false ∧ forkComplete (some fcPartial) = false ∧
    (sendSchemaToApi snapshotApiUrl "doc" none "proj" (some "123") (some fcPartial)
      respOk200).1.headers = [("Content-Type", "application/json")] :=
  ⟨rfl, by decide, (sendSchema_no_credential_plain snapshotApiUrl "doc" none "proj"
    (some "123") (some fcPartial) respOk200 rfl (by decide)).2.1⟩

/-- C7: in OIDC mode a failing token acquisition marks the run failed
with the workflow-permission hint and no request is ever submitted. -/
theorem oidc_failure_fails_before_submit
    (snapshotNameInput authToken permanentInput useOidc : String)
    (ctx : GithubContext) (schema project : String)
    (idTokenResult : Except String (Option String)) (e : String)
    (huse : jsToLower useOidc = "true")
    (hthrow : getOidcToken idTokenResult = Except.error e) :
    ∃ msg, run snapshotNameInput authToken permanentInput useOidc ctx schema project
        idTokenResult = RunStep.failed msg ∧
      strContains msg "\x27id-token: write\x27 permission" = true ∧
      ∀ req, run snapshotNameInput authToken permanentInput useOidc ctx schema project
        idTokenResult ≠ RunStep.submitted req := by
  have hrun : run snapshotNameInput authToken permanentInput useOidc ctx schema project
      idTokenResult = RunStep.failed ("Failed to obtain OIDC token: " ++ e ++
        ". Make sure the workflow has \x27id-token: write\x27 permission.") := by
    simp [run, huse, hthrow]
  refine ⟨_, hrun, ?_, fun req h => by rw [hrun] at h; cases h⟩
  have hc := strContains_left ("Failed to obtain OIDC token: " ++ e)
    ". Make sure the workflow has \x27id-token: write\x27 permission."
    "\x27id-token: write\x27 permission" (by decide)
  simpa [String.append_assoc] using hc

theorem oidc_failure_fails_before_submit_witness :
    jsToLower "True" = "true" ∧
    getOidcToken (Except.error "missing permission") =
      Except.error "Failed to retrieve OIDC token: missing permission" ∧
    ∃ msg, run "" "" "" "True" ctxPR "doc" "proj" (Except.error "missing permission") =
        RunStep.failed msg ∧
      strContains msg "\x27id-token: write\x27 permission" = true ∧
      ∀ req, run "" "" "" "True" ctxPR "doc" "proj" (Except.error "missing permission") ≠
        RunStep.submitted req :=
  ⟨by decide, rfl, oidc_failure_fails_before_submit "" "" "" "True" ctxPR "doc" "proj"
    (Except.error "missing permission") "Failed to retrieve OIDC token: missing permission"
    (by decide) rfl⟩

/-- C8: with OIDC mode off and an empty auth token the run fails with the
no-credential message, which names both the maintainer re-run and the
OIDC remediation, and no request is ever submitted. -/
theorem no_credential_fails_before_submit
    (snapshotNameInput authToken permanentInput useOidc : String)
    (ctx : GithubContext) (schema project : String)
    (idTokenResult : Except String (Option String))
    (huse : jsToLower useOidc ≠ "true") (htok : authToken = "") :
    run snapshotNameInput authToken permanentInput useOidc ctx schema project
      idTokenResult = RunStep.failed noAuthTokenMessage ∧
    strContains noAuthTokenMessage "A maintainer can manually approve and re-run" = true ∧
    strContains noAuthTokenMessage "use-oidc: true" = true ∧
    ∀ req, run snapshotNameInput authToken permanentInput useOidc ctx schema project
      idTokenResult ≠ RunStep.submitted req := by
  have hrun : run snapshotNameInput authToken permanentInput useOidc ctx schema project
      idTokenResult = RunStep.failed noAuthTokenMessage := by
    simp [run, huse, htok]
  exact ⟨hrun, by decide, by decide, fun req h => by rw [hrun] at h; cases h⟩

theorem no_credential_fails_before_submit_witness :
    jsToLower "false" ≠ "true" ∧ ("" : String) = "" ∧
    run "" "" "" "false" ctxPush "doc" "proj" (Except.ok (some "tok")) =
      RunStep.failed noAuthTokenMessage :=
  ⟨by decide, rfl, (no_credential_fails_before_submit "" "" "" "false" ctxPush "doc"
    "proj" (Except.ok (some "tok")) (by decide) rfl).1⟩

theorem strContains_self_pre (p t : String) : strContains (p ++ t) p = true := by
  unfold strContains
  rw [String.data_append]
  exact listContains_self_append _ _

theorem joinLines_cons₂ (a b : String) (l : List String) :
    joinLines (a :: b :: l) = a ++ "\n" ++ joinLines (b :: l) := rfl

/-- Every rendered comment body contains the fixed marker: the marker is
the first line of every rendering branch. -/
theorem formatComment_marked (response : SnapshotReturn) (project : String)
    (ctx : GithubContext) :
    strContains (formatComment response project ctx) COMMENT_IDENTIFIER = true := by
  obtain ⟨tl, htl⟩ : ∃ tl, formatCommentLines response project ctx =
      COMMENT_IDENTIFIER :: "## 📸 OpenAPI Snapshot" :: tl := ⟨_, rfl⟩
  rw [formatComment, htl, joinLines_cons₂, String.append_assoc]
  exact strContains_self_pre _ _

/-- C6: a successful same-as-base result renders neither the compare link
line nor the success line, and does render the no-changes line naming the
base reference (with its fallback) and the base-snapshot link line. -/
theorem sameAsBase_rendering (response : SnapshotReturn) (project : String)
    (ctx : GithubContext) (snap : SnapshotInfo)
    (hs : response.snapshot = some snap) (hb : response.sameAsBase = true) :
    (∀ p b n, ("🔄 **Compare URL:** https://explore-openapi.dev/compare?project=" ++ p ++
        "&baseSnapshot=" ++ b ++ "&featureSnapshot=" ++ toString (n : Nat)) ∉
      formatCommentLines response project ctx) ∧
    "✅ Successfully created snapshot!" ∉ formatCommentLines response project ctx ∧
    ("ℹ️ No changes detected compared to " ++ baseRefOrFallback ctx) ∈
      formatCommentLines response project ctx ∧
    ("🔗 **Base Branch Snapshot:** https://explore-openapi.dev/view?project=" ++ project ++
      "&snapshot=" ++ baseRefOrFallback ctx) ∈ formatCommentLines response project ctx := by
  by_cases hm : optStrTruthy response.message = true
  · have hlines : formatCommentLines response project ctx =
        [COMMENT_IDENTIFIER, "## 📸 OpenAPI Snapshot", "",
         "ℹ️ No changes detected compared to " ++ baseRefOrFallback ctx, "",
         "🔗 **Base Branch Snapshot:** https://explore-openapi.dev/view?project=" ++
           project ++ "&snapshot=" ++ baseRefOrFallback ctx,
         "", "📝 " ++ response.message.getD ""] := by
      simp [formatCommentLines, hs, hb, hm]
    rw [hlines]
    refine ⟨?_, ?_, by simp, by simp⟩
    · intro p b n hmem
      simp only [List.mem_cons, List.not_mem_nil, or_false] at hmem
      rcases hmem with h | h | h | h | h | h | h | h <;>
        first
          | exact absurd h (strHead_ne rfl rfl (by decide))
          | exact absurd h (strHead_ne_none rfl rfl)
    · intro hmem
      simp only [List.mem_cons, List.not_mem_nil, or_false] at hmem
      rcases hmem with h | h | h | h | h | h | h | h <;>
        first
          | exact absurd h (strHead_ne rfl rfl (by decide))
          | exact absurd h (strHead_ne_none rfl rfl)
  · have hm2 : optStrTruthy response.message = false := by
      cases h2 : optStrTruthy response.message
      · rfl
      · exact absurd h2 hm
    have hlines : formatCommentLines response project ctx =
        [COMMENT_IDENTIFIER, "## 📸 OpenAPI Snapshot", "",
         "ℹ️ No changes detected compared to " ++ baseRefOrFallback ctx, "",
         "🔗 **Base Branch Snapshot:** https://explore-openapi.dev/view?project=" ++
           project ++ "&snapshot=" ++ baseRefOrFallback ctx] := by
      simp [formatCommentLines, hs, hb, hm2]
    rw [hlines]
    refine ⟨?_, ?_, by simp, by simp⟩
    · intro p b n hmem
      simp only [List.mem_cons, List.not_mem_nil, or_false] at hmem
      rcases hmem with h | h | h | h | h | h <;>
        first
          | exact absurd h (strHead_ne rfl rfl (by decide))
          | exact absurd h (strHead_ne_none rfl rfl)
    · intro hmem
      simp only [List.mem_cons, List.not_mem_nil, or_false] at hmem
      rcases hmem with h | h | h | h | h | h <;>
        first
          | exact absurd h (strHead_ne rfl rfl (by decide))
          | exact absurd h (strHead_ne_none rfl rfl)

/-- A successful same-as-base response used by the rendering witness. -/
def sameAsBaseReturn : SnapshotReturn :=
  { snapshot := some { id := some "id1", name := "123" }, sameAsBase := true,
    message := none, error := none }

theorem sameAsBase_rendering_witness :
    sameAsBaseReturn.snapshot = some { id := some "id1", name := "123" } ∧
    sameAsBaseReturn.sameAsBase = true ∧
    ("ℹ️ No changes detected compared to " ++ baseRefOrFallback ctxPR) ∈
      formatCommentLines sameAsBaseReturn "proj" ctxPR :=
  ⟨rfl, rfl, (sameAsBase_rendering sameAsBaseReturn "proj" ctxPR _ rfl rfl).2.2.1⟩

theorem find?_eq_some_decomp {α : Type} (p : α → Bool) (l : List α) (a : α)
    (h : l.find? p = some a) :
    ∃ s t, l = s ++ a :: t ∧ ∀ x ∈ s, p x = false := by
  induction l with
  | nil => simp at h
  | cons b bs ih =>
    by_cases hb : p b
    · refine ⟨[], bs, ?_, by simp⟩
      simp [List.find?, hb] at h
      simp [h]
    · simp [List.find?, hb] at h
      obtain ⟨s, t, rfl, hs⟩ := ih h
      exact ⟨b :: s, t, rfl, by simpa [hb] using hs⟩

theorem map_eq_self_of {α : Type} (l : List α) (f : α → α) (h : ∀ x ∈ l, f x = x) :
    l.map f = l := by
  induction l with
  | nil => rfl
  | cons a as ih => simp [h a (by simp), ih (fun x hx => h x (by simp [hx]))]

/-- Shape of the upsert when a marker-tagged comment exists: the listed
comments split around the first marker-tagged one, which alone gets the
new body while every other comment and the list length are unchanged. -/
theorem upsert_update (comments : List Comment) (newId : Nat) (newBody : String)
    (hnodup : (comments.map Comment.id).Nodup) (ex : Comment)
    (hfind : comments.find? isMarked = some ex) :
    ∃ before after, comments = before ++ ex :: after ∧
      isMarked ex = true ∧ (∀ x ∈ before, isMarked x = false) ∧
      upsertComment comments newId newBody =
        before ++ { ex with body := newBody } :: after := by
  obtain ⟨before, after, hsplit, hbefore⟩ := find?_eq_some_decomp isMarked comments ex hfind
  have hmark : isMarked ex = true := List.find?_some hfind
  refine ⟨before, after, hsplit, hmark, hbefore, ?_⟩
  have hnd : ((before ++ ex :: after).map Comment.id).Nodup := by rwa [hsplit] at hnodup
  rw [List.map_append, List.map_cons] at hnd
  have hnotin := List.disjoint_of_nodup_append hnd
  have hr : (ex.id :: List.map Comment.id after).Nodup := (List.nodup_append.mp hnd).2.1
  have hexb : ∀ x ∈ before, x.id ≠ ex.id := by
    intro x hx he
    exact hnotin (List.mem_map_of_mem Comment.id hx) (by simp [he])
  have hexa : ∀ x ∈ after, x.id ≠ ex.id := by
    intro x hx he
    exact (List.nodup_cons.mp hr).1
      (by simpa [← he] using List.mem_map_of_mem Comment.id hx)
  have hdef : upsertComment comments newId newBody =
      comments.map (fun c => if c.id = ex.id then { c with body := newBody } else c) := by
    unfold upsertComment
    rw [hfind]
  rw [hdef, hsplit, List.map_append, List.map_cons]
  congr 1
  · exact map_eq_self_of _ _ (fun x hx => by simp [hexb x hx])
  · congr 1
    · simp
    · exact map_eq_self_of _ _ (fun x hx => by simp [hexa x hx])

/-- One upsert with a marker-containing body keeps the thread at no more
than one marker-tagged comment. -/
theorem upsert_countMarked (comments : List Comment) (newId : Nat) (newBody : String)
    (hb : strContains newBody COMMENT_IDENTIFIER = true)
    (hnodup : (comments.map Comment.id).Nodup)
    (hle : countMarked comments ≤ 1) :
    countMarked (upsertComment comments newId newBody) ≤ 1 := by
  cases hfind : comments.find? isMarked with
  | none =>
    have hall : ∀ x ∈ comments, isMarked x = false := by
      intro x hx
      simpa using List.find?_eq_none.mp hfind x hx
    have h0 : countMarked comments = 0 := by
      rw [countMarked, List.countP_eq_zero]
      intro a ha
      simp [hall a ha]
    unfold upsertComment
    rw [hfind, countMarked, List.countP_append]
    have := h0
    rw [countMarked] at this
    simp [this, List.countP_cons]
    cases isMarked { id := newId, body := newBody } <;> simp
  | some ex =>
    obtain ⟨before, after, hsplit, hmark, hbefore, hres⟩ :=
      upsert_update comments newId newBody hnodup ex hfind
    have hb0 : before.countP isMarked = 0 := by
      rw [List.countP_eq_zero]
      intro a ha
      simp [hbefore a ha]
    have ha0 : after.countP isMarked = 0 := by
      have : countMarked comments = before.countP isMarked + (ex :: after).countP isMarked := by
        rw [hsplit, countMarked, List.countP_append]
      simp only [List.countP_cons, hmark, hb0, if_true] at this
      omega
    rw [hres, countMarked, List.countP_append, List.countP_cons, hb0, ha0]
    have : isMarked { ex with body := newBody } = true := by
      simpa [isMarked] using hb
    simp [this]

/-- The upsert either keeps the comment identities unchanged (update) or
appends the fresh identity (create). -/
theorem upsert_ids (comments : List Comment) (newId : Nat) (newBody : String) :
    (upsertComment comments newId newBody).map Comment.id = comments.map Comment.id ∨
    (upsertComment comments newId newBody).map Comment.id =
      comments.map Comment.id ++ [newId] := by
  unfold upsertComment
  cases hfind : comments.find? isMarked with
  | some ex =>
    left
    rw [List.map_map]
    have : (Comment.id ∘ fun c =>
        if c.id = ex.id then { c with body := newBody } else c) = Comment.id := by
      funext c
      by_cases h : c.id = ex.id <;> simp [h]
    rw [this]
  | none =>
    right
    simp

/-- Any sequence of reruns with marker-containing bodies and fresh
identities keeps the thread at no more than one marker-tagged comment. -/
theorem runThread_at_most_one (ctx : GithubContext) :
    ∀ (invocations : List (Nat × SnapshotReturn × String)) (comments : List Comment),
      countMarked comments ≤ 1 →
      (comments.map Comment.id ++ invocations.map (fun i => i.1)).Nodup →
      countMarked (runThread ctx comments invocations) ≤ 1 := by
  intro invocations
  induction invocations with
  | nil =>
    intro comments h _
    simpa [runThread] using h
  | cons iv rest ih =>
    obtain ⟨newId, response, project⟩ := iv
    intro comments h hd
    have hdl : (comments.map Comment.id).Nodup :=
      hd.sublist (List.sublist_append_left _ _)
    apply ih
    · exact upsert_countMarked comments newId (formatComment response project ctx)
        (formatComment_marked response project ctx) hdl h
    · rcases upsert_ids comments newId (formatComment response project ctx) with he | he
      · rw [he]
        refine hd.sublist ?_
        refine List.Sublist.append (List.Sublist.refl _) ?_
        simp only [List.map_cons]
        exact List.sublist_cons_self _ _
      · rw [he, List.append_assoc]
        simpa using hd

/-- C5: on a thread with a marker-tagged comment the reporter updates the
first such comment in place through its identity and creates nothing; on
a thread with none it creates exactly one new comment; and starting from
at most one marker-tagged comment, any sequence of reruns leaves at most
one marker-tagged comment. -/
theorem createOrUpdateComment_upsert (ctx : GithubContext) (pr : PullRequestInfo)
    (hctx : ctx.pull_request = some pr) (hpr : pr.number ≠ 0)
    (comments : List Comment) (newId : Nat) (response : SnapshotReturn)
    (project : String) (hnodup : (comments.map Comment.id).Nodup) :
    (∃ updated, createOrUpdateComment ctx comments newId response project =
        Except.ok updated ∧
      ((∃ c ∈ comments, isMarked c = true) →
        ∃ before c after, comments = before ++ c :: after ∧ isMarked c = true ∧
          (∀ x ∈ before, isMarked x = false) ∧
          updated = before ++
            { c with body := formatComment response project ctx } :: after) ∧
      ((∀ c ∈ comments, isMarked c = false) →
        updated = comments ++
          [{ id := newId, body := formatComment response project ctx }])) ∧
    (∀ invocations : List (Nat × SnapshotReturn × String),
      countMarked comments ≤ 1 →
      (comments.map Comment.id ++ invocations.map (fun i => i.1)).Nodup →
      countMarked (runThread ctx comments invocations) ≤ 1) := by
  constructor
  · refine ⟨upsertComment comments newId (formatComment response project ctx),
      by simp [createOrUpdateComment, hctx, hpr], ?_, ?_⟩
    · intro hex
      obtain ⟨c, hc, hmc⟩ := hex
      cases hfind : comments.find? isMarked with
      | none =>
        have := List.find?_eq_none.mp hfind c hc
        simp [hmc] at this
      | some ex =>
        obtain ⟨before, after, hsplit, hmark, hbefore, hres⟩ :=
          upsert_update comments newId (formatComment response project ctx) hnodup
            ex hfind
        exact ⟨before, ex, after, hsplit, hmark, hbefore, hres⟩
    · intro hall
      have hfind : comments.find? isMarked = none :=
        List.find?_eq_none.mpr (fun x hx => by simp [hall x hx])
      unfold upsertComment
      rw [hfind]
  · exact fun invocations h hd => runThread_at_most_one ctx invocations comments h hd

/-- An unmarked pre-existing comment used by the upsert witness. -/
def plainComment : Comment := { id := 5, body := "hello" }

theorem createOrUpdateComment_upsert_witness :
    ctxPR.pull_request = some { number := 123, baseRef := some "main" } ∧
    (123 : Nat) ≠ 0 ∧ (([plainComment] : List Comment).map Comment.id).Nodup ∧
    ∃ updated, createOrUpdateComment ctxPR [plainComment] 9 emptyReturn "proj" =
        Except.ok updated ∧
      ((∃ c ∈ [plainComment], isMarked c = true) →
        ∃ before c after, [plainComment] = before ++ c :: after ∧ isMarked c = true ∧
          (∀ x ∈ before, isMarked x = false) ∧
          updated = before ++
            { c with body := formatComment emptyReturn "proj" ctxPR } :: after) ∧
      ((∀ c ∈ [plainComment], isMarked c = false) →
        updated = [plainComment] ++
          [{ id := 9, body := formatComment emptyReturn "proj" ctxPR }]) :=
  ⟨rfl, by decide, by decide,
    (createOrUpdateComment_upsert ctxPR { number := 123, baseRef := some "main" } rfl
      (by decide) [plainComment] 9 emptyReturn "proj" (by decide)).1⟩
